import Mathlib

/-!
Verification development for the retrieval-and-relevance core of the
compliance-standards repository (`src/agents/standard_retriever.py`).

The Python source is shallowly embedded: strings are `String`, Python
`float` scores are modelled as exact rationals `ℚ`, Python `dict`
metadata records are a `Metadata` structure, list mutation is explicit
state passing, and `try/except` is `Except`.  Python string helpers
(`str.split`, `str.strip`, `str.lower`, substring `in`, `str.split(sep)`)
are re-implemented character-for-character below so that every
definition can be evaluated by the kernel on concrete inputs.
-/

/-! ## Python string primitives -/

/-- The whitespace class of Python's `str.split()` / `\s` (ASCII part). -/
def isPySpace (c : Char) : Bool :=
  c == ' ' || c == '\t' || c == '\n' || c == '\r' || c == '\x0b' || c == '\x0c'

/-- Python `len` on a string: number of characters. -/
def pyLen (s : String) : Nat := s.data.length

/-- Python `str.lower()` (ASCII). -/
def lowerS (s : String) : String := String.mk (s.data.map Char.toLower)

/-- Strip `isPySpace` characters from both ends of a character list. -/
def stripChars (l : List Char) : List Char :=
  ((l.dropWhile isPySpace).reverse.dropWhile isPySpace).reverse

/-- Python `str.strip()`. -/
def pyStrip (s : String) : String := String.mk (stripChars s.data)

/-- Does `hay` start with `needle` (exact characters)? -/
def beginsWith : List Char → List Char → Bool
  | [], _ => true
  | _ :: _, [] => false
  | a :: as, b :: bs => a == b && beginsWith as bs

/-- Python's substring test `needle in hay` on character lists. -/
def occursIn (needle : List Char) : List Char → Bool
  | [] => needle.isEmpty
  | c :: cs => beginsWith needle (c :: cs) || occursIn needle cs

/-- Python's substring test `needle in hay` on strings. -/
def occursInS (needle hay : String) : Bool := occursIn needle.data hay.data

/-- Auxiliary for `pySplitWS`: accumulate the current (reversed) word. -/
def pySplitWSAux : List Char → List Char → List String
  | [], acc => if acc.isEmpty then [] else [String.mk acc.reverse]
  | c :: cs, acc =>
    if isPySpace c then
      if acc.isEmpty then pySplitWSAux cs []
      else String.mk acc.reverse :: pySplitWSAux cs []
    else pySplitWSAux cs (c :: acc)

/-- Python `str.split()` with no argument: split on whitespace runs, no
empty tokens. -/
def pySplitWS (s : String) : List String := pySplitWSAux s.data []

/-- Auxiliary for `pySplitComma`. -/
def splitCommaAux : List Char → List Char → List String
  | [], acc => [String.mk acc.reverse]
  | c :: cs, acc =>
    if c == ',' then String.mk acc.reverse :: splitCommaAux cs []
    else splitCommaAux cs (c :: acc)

/-- Python `str.split(',')`: keeps empty tokens; `"".split(',') = [""]`. -/
def pySplitComma (s : String) : List String := splitCommaAux s.data []

/-- Auxiliary for `pySplitSep`, fuelled so the recursion is structural. -/
def splitSepAux (sep : List Char) : Nat → List Char → List Char → List String
  | _, [], acc => [String.mk acc.reverse]
  | 0, s, acc => [String.mk (acc.reverse ++ s)]
  | fuel + 1, c :: cs, acc =>
    if beginsWith sep (c :: cs) then
      String.mk acc.reverse :: splitSepAux sep fuel ((c :: cs).drop sep.length) []
    else splitSepAux sep fuel cs (c :: acc)

/-- Python `str.split(sep)` for a non-empty separator: non-overlapping,
left to right. -/
def pySplitSep (sep : String) (s : String) : List String :=
  splitSepAux sep.data s.data.length s.data []

/-! A quick sanity layer: these mirror documented Python behaviours. -/

example : pySplitWS "  a  bb c " = ["a", "bb", "c"] := by decide
example : pySplitComma "" = [""] := by decide
example : pySplitComma "a,,b" = ["a", "", "b"] := by decide
example : pySplitSep "\n\n" "a\n\n\nb" = ["a", "\nb"] := by decide
example : pySplitSep "\n\n" "a\n\n\n\nb" = ["a", "", "b"] := by decide
example : occursInS "shall" "you shall not" = true := by decide
example : occursInS "" "abc" = true := by decide
example : pyStrip "  ab " = "ab" := by decide
example : lowerS "Pasal 26A" = "pasal 26a" := by decide

/-! ## Data model

`Metadata` mirrors the dict built at ingestion time
(`_load_pdf_standard_enhanced`, lines 272-286).  All keys are always
present there, so the fields are total; `text_length` is a Python `len`,
hence `Nat`. -/

structure Metadata where
  source : String
  category : String
  page : Nat
  chunkIdx : Nat
  standard_type : String
  ui_standard : String
  full_name : String
  jurisdiction : String
  focus_areas : String
  text_length : Nat
  keywords : String
  section_type : String
  article : String
deriving DecidableEq

/-- One element of a query result list (`retrieved_standards` /
`matches` item dicts).  The fallback path emits no
`semantic_similarity` key, hence the `Option`. -/
structure Retrieved where
  rank : Nat
  content : String
  source : String
  article : String
  standard_type : String
  ui_standard : String
  full_name : String
  section_type : String
  relevance_score : ℚ
  semantic_similarity : Option ℚ
  keywords_matched : Nat
  text_length : Nat
deriving DecidableEq

/-- Return shape of `process` and of the two query helpers: a dict with
`success`, `standards`, `query` always present and `method` / `message`
/ `error` present on some paths only. -/
structure QueryResponse where
  success : Bool
  standards : List Retrieved
  query : String
  method : Option String
  message : Option String
  error : Option String
deriving DecidableEq

/-! ## Chunk annotator -/

/-- The fixed vocabulary of `_extract_keywords_from_chunk` (lines 323-329). -/
def importantKeywords : List String :=
  ["data", "pribadi", "personal", "consent", "persetujuan", "processing", "pengolahan",
   "security", "keamanan", "privacy", "privasi", "rights", "hak", "protection", "perlindungan",
   "breach", "pelanggaran", "controller", "pengendali", "processor", "pemroses",
   "transfer", "storage", "penyimpanan", "retention", "retensi", "deletion", "penghapusan",
   "audit", "compliance", "kepatuhan", "regulation", "regulasi", "law", "hukum"]

/-- `_extract_keywords_from_chunk`: vocabulary terms occurring in the
lowercased chunk, first ten, comma-joined. -/
def extractKeywordsFromChunk (chunk : String) : String :=
  ",".intercalate ((importantKeywords.filter (fun kw => occursInS kw (lowerS chunk))).take 10)

/-- Pattern group `'definition'` of `_identify_section_type` (line 341). -/
def defGroup : List String := ["definition", "definisi", "means", "berarti", "refers to", "mengacu"]

/-- Pattern group `'obligation'` (line 342). -/
def oblGroup : List String := ["shall", "must", "wajib", "harus", "required", "diwajibkan"]

/-- Pattern group `'prohibition'` (line 343). -/
def prohGroup : List String := ["shall not", "must not", "tidak boleh", "dilarang", "prohibited"]

/-- The ordered pattern groups of `_identify_section_type` (lines 340-347);
Python dict iteration preserves this insertion order. -/
def sectionPatterns : List (String × List String) :=
  [("definition", defGroup),
   ("obligation", oblGroup),
   ("prohibition", prohGroup),
   ("procedure", ["procedure", "prosedur", "process", "proses", "steps", "langkah"]),
   ("penalty", ["penalty", "sanksi", "fine", "denda", "punishment", "hukuman"]),
   ("right", ["right", "hak", "entitle", "berhak", "may request", "dapat meminta"])]

/-- Does any pattern of a group occur in the lowercased chunk? -/
def groupMatches (cl : String) (pats : List String) : Bool :=
  pats.any (fun pat => occursInS pat cl)

/-- `_identify_section_type`: first group with any substring match wins,
default `"general"`. -/
def identifySectionType (chunk : String) : String :=
  match sectionPatterns.find? (fun g => groupMatches (lowerS chunk) g.2) with
  | some g => g.1
  | none => "general"

/-- The `standard → source files` part of `standards_mapping` (lines 51-87),
in dict insertion order; this is all `_get_ui_standard_from_filename` reads. -/
def standardsFiles : List (String × List String) :=
  [("GDPR", ["GDPR.pdf"]), ("NIST", ["NIST.pdf"]), ("UU_PDP", ["UU_PDP.pdf"]),
   ("POJK", ["POJK.pdf"]), ("BSSN", ["BSSN_A.pdf", "BSSN_B.pdf", "BSSN_C.pdf"])]

/-- `_get_ui_standard_from_filename` (lines 644-665). -/
def getUiStandardFromFilename (filename : String) : String :=
  let fl := lowerS filename
  match standardsFiles.find? (fun p => p.2.any (fun f => lowerS f == fl)) with
  | some p => p.1
  | none =>
    if occursInS "gdpr" fl then "GDPR"
    else if occursInS "nist" fl then "NIST"
    else if occursInS "pdp" fl || occursInS "perlindungan_data" fl then "UU_PDP"
    else if occursInS "pojk" fl || occursInS "ojk" fl then "POJK"
    else if occursInS "bssn" fl then "BSSN"
    else "Unknown"

/-! ### Section-reference extraction (lines 259-271)

The source applies `re.search` with pattern
`(Article|Section)\s*(\d+[A-Za-z]*)` (IGNORECASE), then `re.search`
with `(Pasal)\s*(\d+[A-Za-z]*)` (IGNORECASE), the second assignment
overwriting the first when it matches; if neither matched it falls back
to `"Page {page_num+1}"`.  `searchKwNum` is a direct model of
`re.search` for this fixed pattern shape: scan positions left to right,
at each position try the alternation keywords in order
(case-insensitively), then `\s*`, then `\d+` (must be non-empty), then
`[A-Za-z]*`; group 1 is the keyword as matched, group 2 the digits plus
letters. -/

/-- Case-insensitive literal match at the head: `kw` is given lowercase;
returns the matched original characters and the rest of the input. -/
def ciBegins : List Char → List Char → Option (List Char × List Char)
  | [], s => some ([], s)
  | _ :: _, [] => none
  | k :: ks, c :: cs =>
    if c.toLower == k then
      match ciBegins ks cs with
      | some (m, r) => some (c :: m, r)
      | none => none
    else none

/-- Try the whole pattern with a fixed alternation keyword at the current
position. -/
def tryOneAt (kw : List Char) (s : List Char) : Option (String × String) :=
  match ciBegins kw s with
  | none => none
  | some (g1, rest) =>
    let rest2 := rest.dropWhile isPySpace
    let digits := rest2.takeWhile Char.isDigit
    if digits.isEmpty then none
    else some (String.mk g1,
      String.mk (digits ++ (rest2.dropWhile Char.isDigit).takeWhile Char.isAlpha))

/-- Try the alternation keywords in order at the current position. -/
def tryAtPos : List (List Char) → List Char → Option (String × String)
  | [], _ => none
  | kw :: kws, s =>
    match tryOneAt kw s with
    | some r => some r
    | none => tryAtPos kws s

/-- `re.search`: earliest position wins. -/
def searchKwNum (kws : List (List Char)) : List Char → Option (String × String)
  | [] => none
  | c :: cs =>
    match tryAtPos kws (c :: cs) with
    | some r => some r
    | none => searchKwNum kws cs

/-- Python `str.capitalize()` (ASCII). -/
def pyCapitalize (s : String) : String :=
  match s.data with
  | [] => ""
  | c :: cs => String.mk (c.toUpper :: cs.map Char.toLower)

/-- `f"{match.group(1).capitalize()} {match.group(2)}"`. -/
def fmtMatch (m : String × String) : String := pyCapitalize m.1 ++ " " ++ m.2

/-- The `Article|Section` search of line 262, formatted as stored. -/
def searchArtSec (chunk : String) : Option String :=
  (searchKwNum ["article".data, "section".data] chunk.data).map fmtMatch

/-- The `Pasal` search of line 266, formatted as stored. -/
def searchPasal (chunk : String) : Option String :=
  (searchKwNum ["pasal".data] chunk.data).map fmtMatch

/-- Lines 260-271: sequential assignment; the Pasal match overwrites the
Article/Section match; `"Page {page_num+1}"` when neither matched.
(The Python truthiness test `if not article_match` coincides with the
`Option` match because both formatted results are non-empty.) -/
def extractArticle (chunk : String) (pageNum : Nat) : String :=
  match searchPasal chunk, searchArtSec chunk with
  | some v, _ => v
  | none, some v => v
  | none, none => "Page " ++ toString pageNum

example : identifySectionType "Data subjects shall comply" = "obligation" := by decide
example : identifySectionType "nothing here" = "general" := by decide
example : identifySectionType "this means you shall not smoke" = "definition" := by decide
example : extractArticle "see Article 6A of GDPR" 2 = "Article 6A" := by decide
example : extractArticle "lihat PASAL 26 tentang data" 2 = "Pasal 26" := by decide
example : extractArticle "Article 5 Pasal 26" 2 = "Pasal 26" := by decide
example : extractArticle "no reference here" 4 = "Page 4" := by decide
example : extractArticle "Article about things" 4 = "Page 4" := by decide
example : extractKeywordsFromChunk "Data pribadi dan security" = "data,pribadi,security" := by decide
example : getUiStandardFromFilename "gdpr.PDF" = "GDPR" := by decide

/-! ## Relevance scorer (`_calculate_enhanced_relevance`, lines 539-569)

Python floats are modelled as exact rationals.  `query_words` is a
Python `set`, modelled as a deduplicated list; only membership and
cardinality are used. -/

/-- Python's binary `min` on rationals, written so that the kernel can
evaluate it on concrete inputs. -/
def pyMin (a b : ℚ) : ℚ := if a ≤ b then a else b

theorem pyMin_eq_min (a b : ℚ) : pyMin a b = min a b := (min_def a b).symm

/-- `set(s.lower().split())` as a duplicate-free list. -/
def wordsOf (s : String) : List String := (pySplitWS (lowerS s)).dedup

/-- Factor 1 (40%): `|query_words ∩ doc_words| / |query_words|`, zero
for an empty query word set. -/
def keywordScorePart (query document : String) : ℚ :=
  (if (wordsOf query).length = 0 then 0
   else (((wordsOf query).filter (fun w => w ∈ pySplitWS (lowerS document))).length : ℚ)
          / ((wordsOf query).length : ℚ))
    * (2/5)

/-- Factor 2 (20%): fraction of query words that are substrings of some
entry of `metadata['keywords'].lower().split(',')`. -/
def metadataScorePart (query : String) (md : Metadata) : ℚ :=
  if (wordsOf query).length = 0 then 0
  else (((wordsOf query).filter (fun w =>
          (pySplitComma (lowerS md.keywords)).any (fun kw => occursInS w kw))).length : ℚ)
         / ((wordsOf query).length : ℚ) * (1/5)

/-- Factor 3: 0.15 for obligation/procedure/right, else 0.05. -/
def sectionBonusPart (md : Metadata) : ℚ :=
  if md.section_type = "obligation" ∨ md.section_type = "procedure" ∨
     md.section_type = "right" then 3/20 else 1/20

/-- Factor 4 (10%): `min(text_length / 500, 1.0) * 0.1`. -/
def lengthScorePart (md : Metadata) : ℚ :=
  pyMin ((md.text_length : ℚ) / 500) 1 * (1/10)

/-- `_calculate_enhanced_relevance`: the five factors summed, capped at
1.0 (`min(total_score, 1.0)`); there is no lower cap in the source. -/
def calcEnhancedRelevance (query document : String) (md : Metadata) (baseScore : ℚ) : ℚ :=
  pyMin (keywordScorePart query document + metadataScorePart query md +
       sectionBonusPart md + lengthScorePart md + baseScore * (3/20)) 1

/-- `_count_keyword_matches` (lines 571-584). -/
def countKeywordMatches (query keywordsStr : String) : Nat :=
  if keywordsStr = "" then 0
  else ((wordsOf query).filter (fun w =>
          (pySplitComma (lowerS keywordsStr)).dedup.any (fun kw => occursInS w kw))).length

/-! ### The scorer as §4.4 of the spec words it

`specRelevance` is written from the specification's table, not from the
source: word sets are `Finset`s, each weight multiplies its component,
and no clamp is applied ("returns exactly the weighted sum").  Division
by a zero cardinality is the rational-division-by-zero convention
(`x / 0 = 0`), matching the empty-query reading.  It exists solely to
be compared against `calcEnhancedRelevance`. -/

/-- The set of case-folded words of a string. -/
def wordSet (s : String) : Finset String := (pySplitWS (lowerS s)).toFinset

/-- §4.4's weighted sum, unclamped. -/
def specRelevance (query document : String) (md : Metadata) (base : ℚ) : ℚ :=
  (2/5) * (((wordSet query ∩ wordSet document).card : ℚ) / ((wordSet query).card : ℚ))
  + (1/5) * ((((wordSet query).filter (fun w =>
        (pySplitComma (lowerS md.keywords)).any (fun kw => occursInS w kw) = true)).card : ℚ)
        / ((wordSet query).card : ℚ))
  + (if md.section_type ∈ (["obligation", "procedure", "right"] : List String)
      then (3/20 : ℚ) else 1/20)
  + (1/10) * pyMin ((md.text_length : ℚ) / 500) 1
  + (3/20) * base

/-- A metadata record for concrete tests. -/
def mdOfParts (keywords sectionType article uiStandard : String) (textLength : Nat) : Metadata :=
  { source := "GDPR.pdf", category := "Global", page := 1, chunkIdx := 1,
    standard_type := "GDPR", ui_standard := uiStandard, full_name := "GDPR",
    jurisdiction := "EU", focus_areas := "", text_length := textLength,
    keywords := keywords, section_type := sectionType, article := article }

example :
    calcEnhancedRelevance "data" "the data rules" (mdOfParts "" "general" "Pasal 1" "GDPR" 0) (1/2)
      = 21/40 := by
  have h1 : wordsOf "data" = ["data"] := by decide
  have h2 : ["data"].filter (fun w => w ∈ pySplitWS (lowerS "the data rules")) = ["data"] := by
    decide
  have h3 : ["data"].filter (fun w =>
      (pySplitComma (lowerS "")).any (fun kw => occursInS w kw)) = [] := by decide
  simp +decide only [calcEnhancedRelevance, keywordScorePart, metadataScorePart,
    sectionBonusPart, lengthScorePart, pyMin, mdOfParts, h1, h2, h3]
  norm_num

/-! ## Text chunker (`_create_smart_chunks`, lines 734-763) -/

/-- `[p.strip() for p in text.split('\n\n') if len(p.strip()) > 20]`. -/
def paragraphsOf (text : String) : List String :=
  ((pySplitSep "\n\n" text).map pyStrip).filter (fun p => 20 < pyLen p)

/-- The greedy paragraph-accumulation loop plus the final flush
(lines 742-752), as structural recursion over the paragraph list with
the running buffer as state. -/
def accumChunks (size : Nat) (cur : String) : List String → List String
  | [] => if cur = "" then [] else [pyStrip cur]
  | p :: ps =>
    if size < pyLen cur + pyLen p ∧ cur ≠ "" then
      pyStrip cur :: accumChunks size p ps
    else
      accumChunks size (if cur = "" then p else cur ++ "\n\n" ++ p) ps

/-- Chunks produced by the paragraph-splitting path. -/
def paragraphChunks (size : Nat) (text : String) : List String :=
  accumChunks size "" (paragraphsOf text)

/-- The word-window fallback (lines 756-761): join `size / 8`-word
windows with single spaces, keeping only windows whose stripped length
exceeds 50.  Fuelled so the recursion is structural; the fuel is spent
one unit per emitted window. -/
def windowsGo (step : Nat) : Nat → List String → List String
  | 0, _ => []
  | _, [] => []
  | fuel + 1, w :: ws =>
    let c := " ".intercalate ((w :: ws).take step)
    let rest := windowsGo step fuel ((w :: ws).drop step)
    if 50 < pyLen (pyStrip c) then c :: rest else rest

/-- The word-window fallback on a whole text.  With `size < 8` the
source raises `ValueError` (`range` step 0); that point is never
reached, as the only call site uses the default `size = 600`. -/
def wordWindowChunks (size : Nat) (text : String) : List String :=
  let ws := pySplitWS text
  if size / 8 = 0 then [] else windowsGo (size / 8) ws.length ws

/-- `_create_smart_chunks`: paragraph path, replaced by the word-window
fallback when it yields no chunks or exactly one chunk longer than
`2 * size` (line 755, with Python's `and`/`or` precedence). -/
def createSmartChunks (text : String) (size : Nat) : List String :=
  match paragraphChunks size text with
  | [] => wordWindowChunks size text
  | [c] => if size * 2 < pyLen c then wordWindowChunks size text else [c]
  | cs => cs

/-- Line 255-256: only chunks whose stripped length exceeds 50 are
annotated and indexed. -/
def keptChunks (text : String) (size : Nat) : List String :=
  (createSmartChunks text size).filter (fun c => 50 < pyLen (pyStrip c))

example : paragraphsOf "one paragraph with enough length\n\nshort\n\nanother paragraph that is long"
    = ["one paragraph with enough length", "another paragraph that is long"] := by decide
example : paragraphChunks 600 "one paragraph with enough length\n\nanother paragraph that is long"
    = ["one paragraph with enough length\n\nanother paragraph that is long"] := by decide
example : paragraphChunks 40 "one paragraph with enough length\n\nanother paragraph that is long"
    = ["one paragraph with enough length", "another paragraph that is long"] := by decide
example : createSmartChunks "tiny text" 600
    = [] := by decide

/-! ## Embedding index: fallback backend and duplicate handling -/

/-- The in-memory fallback storage (`_create_enhanced_fallback_storage`,
lines 136-148): parallel lists plus the per-standard position index.
Dicts are association lists. -/
structure FallbackStorage where
  documents : List String
  metadatas : List Metadata
  ids : List String
  standardsIndex : List (String × List Nat)
  keywordIndex : List (String × List Nat)
deriving DecidableEq

/-- The freshly created fallback storage. -/
def emptyFallbackStorage : FallbackStorage :=
  { documents := [], metadatas := [], ids := [], standardsIndex := [], keywordIndex := [] }

/-- Update one key of an association list with Python
`if k not in d: d[k] = []` followed by `d[k].append(v)` semantics. -/
def assocAppend (d : List (String × List Nat)) (k : String) (v : Nat) : List (String × List Nat) :=
  match d.find? (fun p => p.1 == k) with
  | some _ => d.map (fun p => if p.1 == k then (p.1, p.2 ++ [v]) else p)
  | none => d ++ [(k, [v])]

/-- The fallback insert of one chunk (lines 301-312): unconditional
appends to the parallel lists and the standards index — the source
performs no duplicate check on `chunk_id` here. -/
def fallbackAdd (st : FallbackStorage) (chunk : String) (md : Metadata)
    (chunkId uiStandard : String) : FallbackStorage :=
  { documents := st.documents ++ [chunk],
    metadatas := st.metadatas ++ [md],
    ids := st.ids ++ [chunkId],
    standardsIndex := assocAppend st.standardsIndex uiStandard st.documents.length,
    keywordIndex := st.keywordIndex }

/-- The primary-backend insert error handler (lines 297-300): on an
exception, `chunks_created` is not incremented and a log entry is
produced only when the message does not contain `"already exists"`
(lowercased).  State is the pair (created count, log). -/
def primaryAddStep (created : Nat) (log : List String) (chunkId : String)
    (outcome : Except String Unit) : Nat × List String :=
  match outcome with
  | Except.ok _ => (created + 1, log)
  | Except.error e =>
    (created,
     if occursInS "already exists" (lowerS e) then log
     else log ++ ["ChromaDB add error: " ++ chunkId ++ ": " ++ e])

/-! ## Query paths -/

/-- `_count_keyword_matches` is already defined above; the selection
filter of the fallback path (line 491): a row is skipped iff
`selected_standards` is truthy (non-empty) and the row's standard is
not in it. -/
def selPass (sel : List String) (md : Metadata) : Bool :=
  sel.isEmpty || sel.contains md.ui_standard

/-- Result-item constructor of the primary path (lines 438-451). -/
def mkChromaItem (query doc : String) (md : Metadata) (dist : ℚ) (rank : Nat) : Retrieved :=
  { rank := rank, content := doc, source := md.source, article := md.article,
    standard_type := md.standard_type, ui_standard := md.ui_standard,
    full_name := md.full_name, section_type := md.section_type,
    relevance_score := calcEnhancedRelevance query doc md (1 - dist),
    semantic_similarity := some (1 - dist),
    keywords_matched := countKeywordMatches query md.keywords,
    text_length := md.text_length }

/-- Result-item constructor of the fallback path (lines 500-512); the
base semantic score is the fixed `0.5` and no `semantic_similarity`
key is emitted. -/
def mkFallbackItem (query doc : String) (md : Metadata) (rank : Nat) : Retrieved :=
  { rank := rank, content := doc, source := md.source, article := md.article,
    standard_type := md.standard_type, ui_standard := md.ui_standard,
    full_name := md.full_name, section_type := md.section_type,
    relevance_score := calcEnhancedRelevance query doc md (1/2),
    semantic_similarity := none,
    keywords_matched := countKeywordMatches query md.keywords,
    text_length := md.text_length }

/-- The candidate loop of `_enhanced_chromadb_query` (lines 421-451):
the backend's zipped `(document, metadata, distance)` rows are folded,
keeping a row only when its article id is non-empty, unseen, and the
stripped document exceeds 30 characters; `rank` is the append position. -/
def chromaAccum (query : String) :
    List (String × Metadata × ℚ) → List Retrieved → List String → List Retrieved
  | [], lst, _ => lst
  | (doc, md, dist) :: rest, lst, seen =>
    if md.article ≠ "" ∧ md.article ∉ seen ∧ 30 < pyLen (pyStrip doc) then
      chromaAccum query rest (lst ++ [mkChromaItem query doc md dist (lst.length + 1)])
        (seen ++ [md.article])
    else chromaAccum query rest lst seen

/-- All kept primary-path candidates, in arrival order. -/
def chromaCandidates (query : String) (results : List (String × Metadata × ℚ)) :
    List Retrieved :=
  chromaAccum query results [] []

/-- Python's `list.sort(key=relevance_score, reverse=True)`: the stable
descending order, realised by insertion sort with the
greater-or-equal-key relation. -/
def relGE (a b : Retrieved) : Prop := b.relevance_score ≤ a.relevance_score

instance : DecidableRel relGE := fun a b =>
  inferInstanceAs (Decidable (b.relevance_score ≤ a.relevance_score))

/-- Stable sort by descending relevance score. -/
def sortByRelevance (l : List Retrieved) : List Retrieved := List.insertionSort relGE l

/-- `_enhanced_chromadb_query` result list: sort by relevance, truncate
to `top_k`. -/
def enhancedChromaStandards (query : String) (results : List (String × Metadata × ℚ))
    (topK : Nat) : List Retrieved :=
  (sortByRelevance (chromaCandidates query results)).take topK

/-- Full primary-path response (lines 460-465). -/
def enhancedChromaQueryRun (query : String) (topK : Nat)
    (results : List (String × Metadata × ℚ)) : QueryResponse :=
  { success := true, standards := enhancedChromaStandards query results topK,
    query := query, method := some "enhanced_chromadb", message := none, error := none }

/-- The candidate loop of `_enhanced_fallback_query` (lines 486-512):
rows failing the selected-standards filter are skipped; every scored row
above the `0.1` threshold is kept; `rank` is the append position.  No
deduplication by article occurs on this path. -/
def fallbackAccum (query : String) (sel : List String) :
    List (String × Metadata) → List Retrieved → List Retrieved
  | [], lst => lst
  | (doc, md) :: rest, lst =>
    if selPass sel md then
      if 1/10 < calcEnhancedRelevance query doc md (1/2) then
        fallbackAccum query sel rest (lst ++ [mkFallbackItem query doc md (lst.length + 1)])
      else fallbackAccum query sel rest lst
    else fallbackAccum query sel rest lst

/-- All kept fallback-path candidates, in storage order. -/
def fallbackCandidates (query : String) (sel : List String)
    (storage : List (String × Metadata)) : List Retrieved :=
  fallbackAccum query sel storage []

/-- `_enhanced_fallback_query` result list: sort by relevance, truncate
to `top_k`. -/
def enhancedFallbackStandards (query : String) (topK : Nat) (sel : List String)
    (storage : List (String × Metadata)) : List Retrieved :=
  (sortByRelevance (fallbackCandidates query sel storage)).take topK

/-- Full fallback-path response (lines 474-528); `storage` is the zip of
the parallel `documents` / `metadatas` lists. -/
def enhancedFallbackQueryRun (query : String) (topK : Nat) (sel : List String)
    (storage : List (String × Metadata)) : QueryResponse :=
  if storage = [] then
    { success := true, standards := [], query := query, method := none,
      message := some "No standards available", error := none }
  else
    { success := true, standards := enhancedFallbackStandards query topK sel storage,
      query := query, method := some "enhanced_fallback", message := none, error := none }

/-! ## `process` and its exception guard

The class defines `process` twice; Python's sequential class-body
execution makes the second definition (lines 370-402) the operative
one.  Its `try/except` — like the one inside
`_enhanced_fallback_query` (lines 530-537) — resolves any internal
exception to a successful-shaped empty response carrying the message in
an `error` field. -/

/-- The except-branch response (lines 397-402 and 532-537). -/
def errorResult (query e : String) : QueryResponse :=
  { success := true, standards := [], query := query, method := none,
    message := none, error := some e }

/-- `process` (lines 370-402): any exception raised while loading
standards or querying surfaces as `Except.error`; otherwise the primary
backend is used when available, the fallback otherwise. -/
def processRun (query : String) (topK : Nat) (sel : List String)
    (exc : Option String) (backend : Option (List (String × Metadata × ℚ)))
    (storage : List (String × Metadata)) : QueryResponse :=
  match exc with
  | some e => errorResult query e
  | none =>
    match backend with
    | some results => enhancedChromaQueryRun query topK results
    | none => enhancedFallbackQueryRun query topK sel storage

/-! ## Scorer bounds -/

theorem pyMin_le_left (a b : ℚ) : pyMin a b ≤ a := by
  rw [pyMin_eq_min]; exact min_le_left a b

theorem pyMin_le_right (a b : ℚ) : pyMin a b ≤ b := by
  rw [pyMin_eq_min]; exact min_le_right a b

theorem le_pyMin {a b c : ℚ} (h1 : c ≤ a) (h2 : c ≤ b) : c ≤ pyMin a b := by
  rw [pyMin_eq_min]; exact le_min h1 h2

theorem keywordScorePart_nonneg (q d : String) : 0 ≤ keywordScorePart q d := by
  unfold keywordScorePart
  split
  · norm_num
  · positivity

theorem metadataScorePart_nonneg (q : String) (md : Metadata) :
    0 ≤ metadataScorePart q md := by
  unfold metadataScorePart
  split
  · norm_num
  · positivity

theorem sectionBonusPart_ge (md : Metadata) : 1/20 ≤ sectionBonusPart md := by
  unfold sectionBonusPart
  split <;> norm_num

theorem lengthScorePart_nonneg (md : Metadata) : 0 ≤ lengthScorePart md := by
  unfold lengthScorePart
  have h : (0 : ℚ) ≤ pyMin ((md.text_length : ℚ) / 500) 1 := by
    apply le_pyMin (by positivity) (by norm_num)
  nlinarith

/-- Every value at most both `1` and the guaranteed floor
`1/20 + base * 3/20` bounds the relevance score from below. -/
theorem le_calcEnhancedRelevance (q d : String) (md : Metadata) (b c : ℚ)
    (h1 : c ≤ 1) (h2 : c ≤ 1/20 + b * (3/20)) :
    c ≤ calcEnhancedRelevance q d md b := by
  unfold calcEnhancedRelevance
  apply le_pyMin _ h1
  have hk := keywordScorePart_nonneg q d
  have hm := metadataScorePart_nonneg q md
  have hs := sectionBonusPart_ge md
  have hl := lengthScorePart_nonneg md
  linarith

/-- The score is capped at `1` (the `min(total_score, 1.0)` of line 569). -/
theorem calcEnhancedRelevance_le_one (q d : String) (md : Metadata) (b : ℚ) :
    calcEnhancedRelevance q d md b ≤ 1 :=
  pyMin_le_right _ 1

/-- With the fallback base score `0.5`, the relevance score is at least
`1/8 = 0.125`. -/
theorem fallbackScore_ge (q d : String) (md : Metadata) :
    1/8 ≤ calcEnhancedRelevance q d md (1/2) :=
  le_calcEnhancedRelevance q d md (1/2) (1/8) (by norm_num) (by norm_num)

/-- Contents kept by the fallback candidate loop are exactly the
documents passing the selected-standards filter. -/
theorem fallbackAccum_content (query : String) (sel : List String)
    (st : List (String × Metadata)) :
    ∀ lst, (fallbackAccum query sel st lst).map (fun r => r.content)
      = lst.map (fun r => r.content)
        ++ (st.filter (fun dm => selPass sel dm.2)).map (fun dm => dm.1) := by
  induction st with
  | nil => intro lst; simp [fallbackAccum]
  | cons hd tl ih =>
    intro lst
    obtain ⟨doc, md⟩ := hd
    by_cases hp : selPass sel md
    · have hsc : 1/10 < calcEnhancedRelevance query doc md (1/2) :=
        lt_of_lt_of_le (by norm_num) (fallbackScore_ge query doc md)
      simp only [fallbackAccum, if_pos hp, if_pos hsc, ih]
      simp [List.filter_cons, hp, mkFallbackItem]
    · simp only [fallbackAccum, if_neg hp, ih]
      simp [List.filter_cons, hp]

/-- Relevance scores in the fallback candidate loop stay at least `1/8`. -/
theorem fallbackAccum_score (query : String) (sel : List String)
    (st : List (String × Metadata)) :
    ∀ lst, (∀ r ∈ lst, 1/8 ≤ r.relevance_score) →
      ∀ r ∈ fallbackAccum query sel st lst, 1/8 ≤ r.relevance_score := by
  induction st with
  | nil => intro lst h; simpa [fallbackAccum] using h
  | cons hd tl ih =>
    intro lst h
    obtain ⟨doc, md⟩ := hd
    by_cases hp : selPass sel md
    · have hsc : 1/10 < calcEnhancedRelevance query doc md (1/2) :=
        lt_of_lt_of_le (by norm_num) (fallbackScore_ge query doc md)
      simp only [fallbackAccum, if_pos hp, if_pos hsc]
      apply ih
      intro r hr
      rcases List.mem_append.mp hr with h1 | h2
      · exact h r h1
      · rcases List.mem_singleton.mp h2 with rfl
        exact fallbackScore_ge query doc md
    · simp only [fallbackAccum, if_neg hp]
      exact ih lst h

/-- Claim C9: in the fallback query path the base semantic score is the
constant `0.5`, so every candidate passing the selected-standards
filter scores at least `0.125 > 0.1`; the `0.1` inclusion threshold
therefore excludes nothing, and the kept candidates are exactly the
rows passing the standards filter. -/
theorem C9_fallback_threshold_vacuous (query : String) (sel : List String)
    (storage : List (String × Metadata)) :
    (fallbackCandidates query sel storage).map (fun r => r.content)
      = (storage.filter (fun dm => selPass sel dm.2)).map (fun dm => dm.1) ∧
    ∀ r ∈ fallbackCandidates query sel storage, 1/8 ≤ r.relevance_score := by
  constructor
  · simpa using fallbackAccum_content query sel storage []
  · exact fallbackAccum_score query sel storage [] (by simp)

/-- Witness for C9 at a concrete one-row store: the row passes the
(empty) filter, is kept, and its score is at least `1/8`. -/
theorem C9_fallback_threshold_vacuous_witness :
    (fallbackCandidates "tanya" []
        [("alpha beta", mdOfParts "" "general" "Pasal 1" "GDPR" 0)]).map (fun r => r.content)
      = ["alpha beta"] ∧
    1/8 ≤ (mkFallbackItem "tanya" "alpha beta"
        (mdOfParts "" "general" "Pasal 1" "GDPR" 0) 1).relevance_score := by
  have h := C9_fallback_threshold_vacuous "tanya" []
    [("alpha beta", mdOfParts "" "general" "Pasal 1" "GDPR" 0)]
  have hcands : fallbackCandidates "tanya" []
      [("alpha beta", mdOfParts "" "general" "Pasal 1" "GDPR" 0)]
      = [mkFallbackItem "tanya" "alpha beta" (mdOfParts "" "general" "Pasal 1" "GDPR" 0) 1] := by
    rw [fallbackCandidates, fallbackAccum, if_pos (by decide),
      if_pos (lt_of_lt_of_le (by norm_num) (fallbackScore_ge "tanya" "alpha beta" _)),
      fallbackAccum]
    simp
  refine ⟨by rw [h.1]; decide, ?_⟩
  exact h.2 _ (by rw [hcands]; exact List.mem_singleton_self _)

/-- Claim C3, counterexample: the score has no lower clamp.  With the
primary-backend base `1 - distance` at cosine distance `2`, a chunk
with no keyword overlap, no tag match, a `general` section and zero
recorded length scores `0.05 - 0.15 = -0.1 < 0`, outside `[0, 1]`. -/
theorem C3_counterexample :
    calcEnhancedRelevance "q" "x" (mdOfParts "" "general" "Pasal 1" "GDPR" 0) (1 - 2) < 0 := by
  have h1 : wordsOf "q" = ["q"] := by decide
  have h2 : ["q"].filter (fun w => w ∈ pySplitWS (lowerS "x")) = [] := by decide
  have h3 : ["q"].filter (fun w =>
      (pySplitComma (lowerS "")).any (fun kw => occursInS w kw)) = [] := by decide
  simp +decide only [calcEnhancedRelevance, keywordScorePart, metadataScorePart,
    sectionBonusPart, lengthScorePart, pyMin, mdOfParts, h1, h2, h3]
  norm_num

/-- Claim C3, amended: the score is clamped above at `1` but has no
lower clamp; it is nonnegative whenever the caller-supplied base score
is nonnegative (as with the fallback constant `0.5`, or `1 - distance`
for distances at most `1`), but can go negative for negative bases. -/
theorem C3_amended_score_bounds (q d : String) (md : Metadata) (b : ℚ) :
    calcEnhancedRelevance q d md b ≤ 1 ∧
    (0 ≤ b → 0 ≤ calcEnhancedRelevance q d md b) := by
  refine ⟨calcEnhancedRelevance_le_one q d md b, fun hb => ?_⟩
  exact le_calcEnhancedRelevance q d md b 0 (by norm_num) (by linarith)

/-- Witness for the amended C3 at the fallback base `0.5`. -/
theorem C3_amended_score_bounds_witness :
    calcEnhancedRelevance "q" "x" (mdOfParts "" "general" "Pasal 1" "GDPR" 0) (1/2) ≤ 1 ∧
    0 ≤ calcEnhancedRelevance "q" "x" (mdOfParts "" "general" "Pasal 1" "GDPR" 0) (1/2) :=
  ⟨(C3_amended_score_bounds "q" "x" (mdOfParts "" "general" "Pasal 1" "GDPR" 0) (1/2)).1,
   (C3_amended_score_bounds "q" "x" (mdOfParts "" "general" "Pasal 1" "GDPR" 0) (1/2)).2
     (by norm_num)⟩

/-- Claim C6: every `process` outcome is successful-shaped (`success`
is `true` on every path), and an internal exception yields exactly the
empty-standards response annotated with the error string — the
exception is resolved, never propagated. -/
theorem C6_process_exception_safe (query : String) (topK : Nat) (sel : List String)
    (exc : Option String) (backend : Option (List (String × Metadata × ℚ)))
    (storage : List (String × Metadata)) :
    (processRun query topK sel exc backend storage).success = true ∧
    (∀ e, exc = some e →
      processRun query topK sel exc backend storage =
        { success := true, standards := [], query := query, method := none,
          message := none, error := some e }) := by
  constructor
  · cases exc with
    | some e => simp [processRun, errorResult]
    | none =>
      cases backend with
      | some results => simp [processRun, enhancedChromaQueryRun]
      | none =>
        by_cases hs : storage = [] <;>
          simp [processRun, enhancedFallbackQueryRun, hs]
  · intro e he
    subst he
    simp [processRun, errorResult]

/-- Witness for C6 at a concrete exception. -/
theorem C6_process_exception_safe_witness :
    (processRun "pertanyaan" 3 [] (some "boom") none []).success = true ∧
    processRun "pertanyaan" 3 [] (some "boom") none [] =
      { success := true, standards := [], query := "pertanyaan", method := none,
        message := none, error := some "boom" } :=
  ⟨(C6_process_exception_safe "pertanyaan" 3 [] (some "boom") none []).1,
   (C6_process_exception_safe "pertanyaan" 3 [] (some "boom") none []).2 "boom" rfl⟩

/-- Claim C8, counterexample: the fallback backend performs no
duplicate check on insert; re-adding an existing `chunk_id` appends a
second entry instead of skipping, so `ids` is no longer duplicate-free. -/
theorem C8_counterexample :
    (fallbackAdd (fallbackAdd emptyFallbackStorage "some chunk text"
        (mdOfParts "" "general" "Pasal 1" "GDPR" 0) "GDPR.pdf_p1_c1_x" "GDPR")
      "some chunk text" (mdOfParts "" "general" "Pasal 1" "GDPR" 0)
      "GDPR.pdf_p1_c1_x" "GDPR").ids = ["GDPR.pdf_p1_c1_x", "GDPR.pdf_p1_c1_x"] ∧
    ¬ (fallbackAdd (fallbackAdd emptyFallbackStorage "some chunk text"
        (mdOfParts "" "general" "Pasal 1" "GDPR" 0) "GDPR.pdf_p1_c1_x" "GDPR")
      "some chunk text" (mdOfParts "" "general" "Pasal 1" "GDPR" 0)
      "GDPR.pdf_p1_c1_x" "GDPR").ids.Nodup := by
  constructor
  · decide
  · decide

/-- Claim C8, amended: only the primary backend treats a duplicate
insert as a silent already-exists outcome (the error is swallowed
without logging and the chunk counter is unchanged); the fallback
backend appends unconditionally, so inserting an id already present
destroys duplicate-freeness of `ids`. -/
theorem C8_amended_duplicate_insert (created : Nat) (log : List String)
    (chunkId e chunk uiStd : String) (st : FallbackStorage) (md : Metadata)
    (he : occursInS "already exists" (lowerS e) = true) :
    primaryAddStep created log chunkId (Except.error e) = (created, log) ∧
    (fallbackAdd st chunk md chunkId uiStd).ids = st.ids ++ [chunkId] ∧
    (chunkId ∈ st.ids → ¬ (fallbackAdd st chunk md chunkId uiStd).ids.Nodup) := by
  refine ⟨by simp [primaryAddStep, he], rfl, fun hmem hnd => ?_⟩
  have : (st.ids ++ [chunkId]).Nodup := hnd
  rw [List.nodup_append] at this
  exact this.2.2 hmem (List.mem_singleton_self chunkId)

/-- Witness for the amended C8: a swallowed ChromaDB duplicate error
and a fallback store already containing the id. -/
theorem C8_amended_duplicate_insert_witness :
    occursInS "already exists" (lowerS "ID id1 already exists in index") = true ∧
    primaryAddStep 4 [] "id1" (Except.error "ID id1 already exists in index") = (4, []) ∧
    ¬ (fallbackAdd (fallbackAdd emptyFallbackStorage "c"
        (mdOfParts "" "general" "Pasal 1" "GDPR" 0) "id1" "GDPR") "c"
        (mdOfParts "" "general" "Pasal 1" "GDPR" 0) "id1" "GDPR").ids.Nodup := by
  have h := C8_amended_duplicate_insert 4 [] "id1" "ID id1 already exists in index" "c" "GDPR"
    (fallbackAdd emptyFallbackStorage "c" (mdOfParts "" "general" "Pasal 1" "GDPR" 0) "id1" "GDPR")
    (mdOfParts "" "general" "Pasal 1" "GDPR" 0) (by decide)
  exact ⟨by decide, h.1, h.2.2 (by decide)⟩

/-! ## Substring monotonicity (for the section-type classifier) -/

theorem beginsWith_append_left {a b s : List Char}
    (h : beginsWith (a ++ b) s = true) : beginsWith a s = true := by
  induction a generalizing s with
  | nil => rfl
  | cons c cs ih =>
    cases s with
    | nil => simp [beginsWith] at h
    | cons d ds =>
      simp only [List.cons_append, beginsWith, Bool.and_eq_true] at h ⊢
      exact ⟨h.1, ih h.2⟩

theorem occursIn_append_left {a b h : List Char}
    (ho : occursIn (a ++ b) h = true) : occursIn a h = true := by
  induction h with
  | nil =>
    simp only [occursIn, List.isEmpty_eq_true, List.append_eq_nil] at ho ⊢
    exact ho.1
  | cons c cs ih =>
    simp only [occursIn, Bool.or_eq_true] at ho ⊢
    rcases ho with h1 | h2
    · exact Or.inl (beginsWith_append_left h1)
    · exact Or.inr (ih h2)

/-- Claim C10, counterexample: a chunk containing `"shall not"` is not
always classified `"obligation"` — the definition group is tested
first, so a chunk that also contains `"means"` is classified
`"definition"`. -/
theorem C10_counterexample :
    occursInS "shall not" (lowerS "this means you shall not smoke") = true ∧
    identifySectionType "this means you shall not smoke" = "definition" := by
  constructor
  · decide
  · decide

/-- Claim C10, amended: a chunk containing `"shall not"` or
`"must not"` (lowercased) is classified `"definition"` or
`"obligation"` — `"obligation"` whenever no definition-group phrase
also occurs — and never `"prohibition"`, because the obligation group
precedes the prohibition group and its patterns `"shall"`/`"must"` are
substrings of the prohibition phrases. -/
theorem C10_amended_never_prohibition (chunk : String)
    (h : occursInS "shall not" (lowerS chunk) = true ∨
         occursInS "must not" (lowerS chunk) = true) :
    (identifySectionType chunk = "definition" ∨
     identifySectionType chunk = "obligation") ∧
    identifySectionType chunk ≠ "prohibition" ∧
    (groupMatches (lowerS chunk) defGroup = false →
      identifySectionType chunk = "obligation") := by
  have hob : groupMatches (lowerS chunk) oblGroup = true := by
    rcases h with h | h
    · have : occursInS "shall" (lowerS chunk) = true := by
        have hsplit : ("shall not").data = ("shall").data ++ (" not").data := by decide
        unfold occursInS at h ⊢
        rw [hsplit] at h
        exact occursIn_append_left h
      simp only [groupMatches, oblGroup, List.any_eq_true]
      exact ⟨"shall", by simp, this⟩
    · have : occursInS "must" (lowerS chunk) = true := by
        have hsplit : ("must not").data = ("must").data ++ (" not").data := by decide
        unfold occursInS at h ⊢
        rw [hsplit] at h
        exact occursIn_append_left h
      simp only [groupMatches, oblGroup, List.any_eq_true]
      exact ⟨"must", by simp, this⟩
  by_cases hd : groupMatches (lowerS chunk) defGroup = true
  · have hfind : List.find? (fun g => groupMatches (lowerS chunk) g.2)
        sectionPatterns = some ("definition", defGroup) :=
      List.find?_cons_of_pos _ hd
    have hres : identifySectionType chunk = "definition" := by
      unfold identifySectionType
      rw [hfind]
    refine ⟨Or.inl hres, by rw [hres]; decide, fun hfalse => ?_⟩
    rw [hd] at hfalse
    exact absurd hfalse (by decide)
  · have hskip : List.find? (fun g => groupMatches (lowerS chunk) g.2) sectionPatterns
        = List.find? (fun g => groupMatches (lowerS chunk) g.2) (sectionPatterns.drop 1) :=
      List.find?_cons_of_neg _ hd
    have hfind : List.find? (fun g => groupMatches (lowerS chunk) g.2)
        (sectionPatterns.drop 1) = some ("obligation", oblGroup) :=
      List.find?_cons_of_pos _ hob
    have hres : identifySectionType chunk = "obligation" := by
      unfold identifySectionType
      rw [hskip, hfind]
    exact ⟨Or.inr hres, by rw [hres]; decide, fun _ => hres⟩

/-- Witness for the amended C10: a phrase with `"shall not"` and no
definition-group phrase is classified `"obligation"`. -/
theorem C10_amended_never_prohibition_witness :
    occursInS "shall not" (lowerS "you shall not do this") = true ∧
    identifySectionType "you shall not do this" = "obligation" :=
  ⟨by decide,
   (C10_amended_never_prohibition "you shall not do this" (Or.inl (by decide))).2.2 (by decide)⟩

/-! ## Section-reference extraction claims -/

theorem append_space_ne_empty (a b : String) : a ++ " " ++ b ≠ "" := by
  intro h
  have hd : (a ++ " " ++ b).data = ([] : List Char) := by rw [h]
  simp [String.data_append] at hd

/-- Any formatted search result is non-empty (it contains a space). -/
theorem fmtMatch_ne_empty (m : String × String) : fmtMatch m ≠ "" :=
  append_space_ne_empty (pyCapitalize m.1) m.2

/-- Claim C4, counterexample: both patterns match, and the stored
reference is the Pasal match, not the Article/Section match — the
second regex assignment overwrites the first, so the Pasal pattern has
priority, not the Article/Section pattern. -/
theorem C4_counterexample :
    searchArtSec "Article 5 Pasal 26" = some "Article 5" ∧
    searchPasal "Article 5 Pasal 26" = some "Pasal 26" ∧
    extractArticle "Article 5 Pasal 26" 3 = "Pasal 26" ∧
    extractArticle "Article 5 Pasal 26" 3 ≠ "Article 5" := by
  refine ⟨by decide, by decide, by decide, by decide⟩

/-- Claim C4, amended: the Pasal regex is applied last and its match
overwrites the Article/Section match, so Pasal wins whenever it
matches; the Article/Section match is stored only when the Pasal
pattern does not match; `"Page {page_number}"` is synthesized when
neither matches, and the stored reference is never empty. -/
theorem C4_amended_pasal_overrides (chunk : String) (n : Nat) :
    (∀ v, searchPasal chunk = some v → extractArticle chunk n = v) ∧
    (searchPasal chunk = none →
      ∀ v, searchArtSec chunk = some v → extractArticle chunk n = v) ∧
    (searchPasal chunk = none → searchArtSec chunk = none →
      extractArticle chunk n = "Page " ++ toString n) ∧
    extractArticle chunk n ≠ "" := by
  refine ⟨?_, ?_, ?_, ?_⟩
  · intro v hv
    simp [extractArticle, hv]
  · intro hp v ha
    simp [extractArticle, hp, ha]
  · intro hp ha
    simp [extractArticle, hp, ha]
  · unfold extractArticle
    cases hp : searchPasal chunk with
    | some v =>
      obtain ⟨m, -, rfl⟩ := Option.map_eq_some'.mp hp
      exact fmtMatch_ne_empty m
    | none =>
      cases ha : searchArtSec chunk with
      | some v =>
        obtain ⟨m, -, rfl⟩ := Option.map_eq_some'.mp ha
        exact fmtMatch_ne_empty m
      | none =>
        intro h
        have h2 : "Page " ++ toString n = "" := h
        have hd : ("Page " ++ toString n).data = ([] : List Char) := by rw [h2]
        simp [String.data_append] at hd

/-- Witness for the amended C4: a chunk matching only the Pasal
pattern stores the Pasal reference. -/
theorem C4_amended_pasal_overrides_witness :
    searchPasal "lihat Pasal 26 tentang data pribadi" = some "Pasal 26" ∧
    extractArticle "lihat Pasal 26 tentang data pribadi" 7 = "Pasal 26" :=
  ⟨by decide,
   (C4_amended_pasal_overrides "lihat Pasal 26 tentang data pribadi" 7).1 "Pasal 26" (by decide)⟩

/-! ## Article dedup (claim C1) -/

/-- Invariant of the primary-path candidate loop: article ids stay
duplicate-free and inside the seen set. -/
theorem chromaAccum_article_nodup (query : String)
    (results : List (String × Metadata × ℚ)) :
    ∀ (lst : List Retrieved) (seen : List String),
      (lst.map (fun r => r.article)).Nodup →
      (∀ a ∈ lst.map (fun r => r.article), a ∈ seen) →
      ((chromaAccum query results lst seen).map (fun r => r.article)).Nodup := by
  induction results with
  | nil => intro lst seen hnd _; simpa [chromaAccum] using hnd
  | cons row rest ih =>
    intro lst seen hnd hsub
    obtain ⟨doc, md, dist⟩ := row
    by_cases hc : md.article ≠ "" ∧ md.article ∉ seen ∧ 30 < pyLen (pyStrip doc)
    · simp only [chromaAccum, if_pos hc]
      apply ih
      · rw [List.map_append, List.nodup_append]
        refine ⟨hnd, by simp [mkChromaItem], ?_⟩
        intro a ha hb
        simp [mkChromaItem] at hb
        subst hb
        exact hc.2.1 (hsub _ ha)
      · intro a ha
        rw [List.map_append, List.mem_append] at ha
        rcases ha with h1 | h2
        · exact List.mem_append.mpr (Or.inl (hsub _ h1))
        · simp [mkChromaItem] at h2
          subst h2
          exact List.mem_append.mpr (Or.inr (List.mem_singleton_self _))
    · simp only [chromaAccum, if_neg hc]
      exact ih lst seen hnd hsub

/-- Claim C1, amended: on the primary (ChromaDB) query path no two
returned items share an `article` value, for every backend result set
and every `top_k`; the fallback path gives no such guarantee (see the
counterexample), as its loop performs no seen-article bookkeeping. -/
theorem C1_amended_primary_article_dedup (query : String) (topK : Nat)
    (results : List (String × Metadata × ℚ)) :
    (((enhancedChromaQueryRun query topK results).standards).map
        (fun r => r.article)).Nodup := by
  have hcand : ((chromaCandidates query results).map (fun r => r.article)).Nodup :=
    chromaAccum_article_nodup query results [] [] (by simp) (by simp)
  have hperm : (sortByRelevance (chromaCandidates query results)).Perm
      (chromaCandidates query results) := List.perm_insertionSort relGE _
  have hsorted : ((sortByRelevance (chromaCandidates query results)).map
      (fun r => r.article)).Nodup :=
    ((hperm.map (fun r => r.article)).nodup_iff).mpr hcand
  show (((sortByRelevance (chromaCandidates query results)).take topK).map
      (fun r => r.article)).Nodup
  rw [List.map_take]
  exact (List.take_sublist _ _).nodup hsorted

/-- Article ids kept by the fallback candidate loop are exactly those
of the rows passing the selected-standards filter — no dedup happens. -/
theorem fallbackAccum_article (query : String) (sel : List String)
    (st : List (String × Metadata)) :
    ∀ lst, (fallbackAccum query sel st lst).map (fun r => r.article)
      = lst.map (fun r => r.article)
        ++ (st.filter (fun dm => selPass sel dm.2)).map (fun dm => dm.2.article) := by
  induction st with
  | nil => intro lst; simp [fallbackAccum]
  | cons hd tl ih =>
    intro lst
    obtain ⟨doc, md⟩ := hd
    by_cases hp : selPass sel md
    · have hsc : 1/10 < calcEnhancedRelevance query doc md (1/2) :=
        lt_of_lt_of_le (by norm_num) (fallbackScore_ge query doc md)
      simp only [fallbackAccum, if_pos hp, if_pos hsc, ih]
      simp [List.filter_cons, hp, mkFallbackItem]
    · simp only [fallbackAccum, if_neg hp, ih]
      simp [List.filter_cons, hp]

/-- On a non-empty store the fallback response's standards list is the
relevance-sorted, truncated candidate list. -/
theorem fallbackRun_standards (q : String) (k : Nat) (sel : List String)
    (st : List (String × Metadata)) (hne : st ≠ []) :
    (enhancedFallbackQueryRun q k sel st).standards
      = (List.insertionSort relGE (fallbackCandidates q sel st)).take k := by
  rw [enhancedFallbackQueryRun, if_neg hne]
  rfl

/-- Claim C1, counterexample: the fallback query path returns two items
with the same section reference.  Two indexed chunks citing
`"Pasal 9"` both pass the (empty) standards filter and the vacuous
threshold, and no dedup is applied on this path. -/
theorem C1_counterexample :
    ((enhancedFallbackQueryRun "tanya" 5 []
        [("alpha beta", mdOfParts "" "general" "Pasal 9" "GDPR" 0),
         ("alpha beta", mdOfParts "" "general" "Pasal 9" "GDPR" 0)]).standards.map
      (fun r => r.article)) = ["Pasal 9", "Pasal 9"] ∧
    ¬ ((enhancedFallbackQueryRun "tanya" 5 []
        [("alpha beta", mdOfParts "" "general" "Pasal 9" "GDPR" 0),
         ("alpha beta", mdOfParts "" "general" "Pasal 9" "GDPR" 0)]).standards.map
      (fun r => r.article)).Nodup := by
  set st : List (String × Metadata) :=
    [("alpha beta", mdOfParts "" "general" "Pasal 9" "GDPR" 0),
     ("alpha beta", mdOfParts "" "general" "Pasal 9" "GDPR" 0)] with hst
  have hcand : (fallbackCandidates "tanya" [] st).map (fun r => r.article)
      = ["Pasal 9", "Pasal 9"] := by
    rw [fallbackCandidates, fallbackAccum_article "tanya" [] st [], hst]
    decide
  have hlen : (fallbackCandidates "tanya" [] st).length = 2 := by
    simpa using congrArg List.length hcand
  have hperm := List.perm_insertionSort relGE (fallbackCandidates "tanya" [] st)
  have hmap : ((enhancedFallbackQueryRun "tanya" 5 [] st).standards.map
      (fun r => r.article)) = ["Pasal 9", "Pasal 9"] := by
    rw [fallbackRun_standards "tanya" 5 [] st (by rw [hst]; decide)]
    rw [List.take_of_length_le (by rw [hperm.length_eq, hlen]; norm_num)]
    have hp2 : ((List.insertionSort relGE (fallbackCandidates "tanya" [] st)).map
        (fun r => r.article)).Perm (List.replicate 2 "Pasal 9") := by
      have h3 := hperm.map (fun r => r.article)
      rw [hcand] at h3
      simpa using h3
    simpa using List.perm_replicate.mp hp2
  exact ⟨hmap, by rw [hmap]; decide⟩

/-! ## Rank assignment (claim C5) -/

/-- Claim C5, failing run: `rank` is assigned at append time (candidate
order) and never reassigned after the sort by relevance, so the
returned list — here correctly sorted by descending score — carries
ranks `[2, 1]`: the item at 1-based position 1 has rank 2. -/
theorem C5_rank_assigned_before_sort :
    ((enhancedFallbackQueryRun "data" 5 []
        [("alpha beta", mdOfParts "" "general" "Pasal 1" "GDPR" 0),
         ("data rules", mdOfParts "" "general" "Pasal 2" "GDPR" 0)]).standards.map
      (fun r => r.rank)) = [2, 1] ∧
    ((enhancedFallbackQueryRun "data" 5 []
        [("alpha beta", mdOfParts "" "general" "Pasal 1" "GDPR" 0),
         ("data rules", mdOfParts "" "general" "Pasal 2" "GDPR" 0)]).standards.map
      (fun r => r.relevance_score)) = [21/40, 1/8] := by
  have h1 : wordsOf "data" = ["data"] := by decide
  have h3 : ["data"].filter (fun w =>
      (pySplitComma (lowerS "")).any (fun kw => occursInS w kw)) = [] := by decide
  have hA : calcEnhancedRelevance "data" "alpha beta"
      (mdOfParts "" "general" "Pasal 1" "GDPR" 0) (1/2) = 1/8 := by
    have h2 : ["data"].filter (fun w => w ∈ pySplitWS (lowerS "alpha beta")) = [] := by decide
    simp +decide only [calcEnhancedRelevance, keywordScorePart, metadataScorePart,
      sectionBonusPart, lengthScorePart, pyMin, mdOfParts, h1, h2, h3]
    norm_num
  have hB : calcEnhancedRelevance "data" "data rules"
      (mdOfParts "" "general" "Pasal 2" "GDPR" 0) (1/2) = 21/40 := by
    have h2 : ["data"].filter (fun w => w ∈ pySplitWS (lowerS "data rules")) = ["data"] := by
      decide
    simp +decide only [calcEnhancedRelevance, keywordScorePart, metadataScorePart,
      sectionBonusPart, lengthScorePart, pyMin, mdOfParts, h1, h2, h3]
    norm_num
  have hcands : fallbackCandidates "data" []
      [("alpha beta", mdOfParts "" "general" "Pasal 1" "GDPR" 0),
       ("data rules", mdOfParts "" "general" "Pasal 2" "GDPR" 0)]
      = [mkFallbackItem "data" "alpha beta" (mdOfParts "" "general" "Pasal 1" "GDPR" 0) 1,
         mkFallbackItem "data" "data rules" (mdOfParts "" "general" "Pasal 2" "GDPR" 0) 2] := by
    rw [fallbackCandidates]
    rw [fallbackAccum, if_pos (by decide),
      if_pos (lt_of_lt_of_le (by norm_num) (fallbackScore_ge "data" "alpha beta" _))]
    rw [fallbackAccum, if_pos (by decide),
      if_pos (lt_of_lt_of_le (by norm_num) (fallbackScore_ge "data" "data rules" _))]
    rw [fallbackAccum]
    simp
  have hrel : ¬ relGE
      (mkFallbackItem "data" "alpha beta" (mdOfParts "" "general" "Pasal 1" "GDPR" 0) 1)
      (mkFallbackItem "data" "data rules" (mdOfParts "" "general" "Pasal 2" "GDPR" 0) 2) := by
    simp only [relGE, mkFallbackItem]
    rw [hA, hB]
    norm_num
  have hsort : List.insertionSort relGE
      [mkFallbackItem "data" "alpha beta" (mdOfParts "" "general" "Pasal 1" "GDPR" 0) 1,
       mkFallbackItem "data" "data rules" (mdOfParts "" "general" "Pasal 2" "GDPR" 0) 2]
      = [mkFallbackItem "data" "data rules" (mdOfParts "" "general" "Pasal 2" "GDPR" 0) 2,
         mkFallbackItem "data" "alpha beta" (mdOfParts "" "general" "Pasal 1" "GDPR" 0) 1] := by
    simp only [List.insertionSort]
    simp only [List.orderedInsert, if_neg hrel]
  have hstd : (enhancedFallbackQueryRun "data" 5 []
      [("alpha beta", mdOfParts "" "general" "Pasal 1" "GDPR" 0),
       ("data rules", mdOfParts "" "general" "Pasal 2" "GDPR" 0)]).standards
      = [mkFallbackItem "data" "data rules" (mdOfParts "" "general" "Pasal 2" "GDPR" 0) 2,
         mkFallbackItem "data" "alpha beta" (mdOfParts "" "general" "Pasal 1" "GDPR" 0) 1] := by
    rw [fallbackRun_standards "data" 5 [] _ (by decide), hcands, hsort]
    simp
  constructor
  · rw [hstd]; simp [mkFallbackItem]
  · rw [hstd]
    simp only [List.map_cons, List.map_nil, mkFallbackItem]
    rw [hA, hB]

/-! ## Chunk length bounds (claim C7) -/

theorem pyLen_mk (l : List Char) : pyLen (String.mk l) = l.length := rfl

theorem pyLen_pyStrip_le (s : String) : pyLen (pyStrip s) ≤ pyLen s := by
  unfold pyStrip pyLen stripChars
  simp only [String.data]
  calc (((s.data.dropWhile isPySpace).reverse.dropWhile isPySpace).reverse).length
      = ((s.data.dropWhile isPySpace).reverse.dropWhile isPySpace).length :=
        List.length_reverse _
    _ ≤ (s.data.dropWhile isPySpace).reverse.length :=
        (List.dropWhile_sublist isPySpace).length_le
    _ = (s.data.dropWhile isPySpace).length := List.length_reverse _
    _ ≤ s.data.length := (List.dropWhile_sublist isPySpace).length_le

theorem pyLen_append (a b : String) : pyLen (a ++ b) = pyLen a + pyLen b := by
  unfold pyLen
  rw [String.data_append, List.length_append]

theorem mem_le_foldr_max (l : List Nat) (a : Nat) (h : a ∈ l) :
    a ≤ l.foldr max 0 := by
  induction l with
  | nil => cases h
  | cons x xs ih =>
    rcases List.mem_cons.mp h with rfl | hmem
    · exact le_max_left _ _
    · exact le_trans (ih hmem) (le_max_right _ _)

/-- Invariant of the greedy accumulation loop: every emitted chunk is
bounded by `max (size + 2) M`, where `M` bounds the paragraphs and the
running buffer. -/
theorem accumChunks_bound (size M : Nat) (ps : List String) :
    ∀ cur, pyLen cur ≤ max (size + 2) M → (∀ p ∈ ps, pyLen p ≤ M) →
      ∀ c ∈ accumChunks size cur ps, pyLen c ≤ max (size + 2) M := by
  induction ps with
  | nil =>
    intro cur hcur _ c hc
    unfold accumChunks at hc
    split at hc
    · cases hc
    · rcases List.mem_singleton.mp hc with rfl
      exact le_trans (pyLen_pyStrip_le cur) hcur
  | cons p ps ih =>
    intro cur hcur hps c hc
    have hpM : pyLen p ≤ M := hps p (List.mem_cons_self p ps)
    have hpsM : ∀ q ∈ ps, pyLen q ≤ M := fun q hq => hps q (List.mem_cons_of_mem p hq)
    unfold accumChunks at hc
    split at hc
    · rcases List.mem_cons.mp hc with rfl | hmem
      · exact le_trans (pyLen_pyStrip_le cur) hcur
      · exact ih p (le_trans hpM (le_max_right _ _)) hpsM c hmem
    · rename_i hcond
      by_cases hemp : cur = ""
      · rw [if_pos hemp] at hc
        exact ih p (le_trans hpM (le_max_right _ _)) hpsM c hc
      · rw [if_neg hemp] at hc
        have hle : pyLen cur + pyLen p ≤ size := by
          by_contra hgt
          exact hcond ⟨by omega, hemp⟩
        have hnew : pyLen (cur ++ "\n\n" ++ p) ≤ size + 2 := by
          rw [pyLen_append, pyLen_append]
          have h2 : pyLen "\n\n" = 2 := by decide
          omega
        exact ih (cur ++ "\n\n" ++ p) (le_trans hnew (le_max_left _ _)) hpsM c hc

/-- Claim C7, amended: every chunk passed on to annotation and indexing
has length at least 50 (indeed its stripped length exceeds 50); chunks
from paragraph-splitting are bounded by
`max (target_size + 2) (length of the longest paragraph)` — a chunk
consisting of a single paragraph can exceed `2 × target_size` even when
the word-window fallback is not used, since the fallback only triggers
when splitting yields no chunk or exactly one oversized chunk. -/
theorem C7_amended_chunk_bounds (text : String) (size : Nat) :
    (∀ c ∈ keptChunks text size, 50 ≤ pyLen c) ∧
    (∀ c ∈ paragraphChunks size text,
      pyLen c ≤ max (size + 2) (((paragraphsOf text).map pyLen).foldr max 0)) := by
  constructor
  · intro c hc
    have hmem := List.mem_filter.mp hc
    have hlt : 50 < pyLen (pyStrip c) := by
      have := hmem.2
      simpa using this
    have := pyLen_pyStrip_le c
    omega
  · intro c hc
    apply accumChunks_bound size (((paragraphsOf text).map pyLen).foldr max 0)
      (paragraphsOf text) "" (by simp [pyLen]) _ c hc
    intro p hp
    exact mem_le_foldr_max _ _ (List.mem_map_of_mem pyLen hp)

/-- Witness for the amended C7 on a two-paragraph page whose paragraphs
accumulate into one kept chunk. -/
theorem C7_amended_chunk_bounds_witness :
    ("abcdefghijabcdefghijabcdefghijabcdefghijabcdefghijabcdefghij\n\nklmnopqrstklmnopqrstklmnopqrst"
        ∈ keptChunks "abcdefghijabcdefghijabcdefghijabcdefghijabcdefghijabcdefghij\n\nklmnopqrstklmnopqrstklmnopqrst" 600 ∧
      50 ≤ pyLen "abcdefghijabcdefghijabcdefghijabcdefghijabcdefghijabcdefghij\n\nklmnopqrstklmnopqrstklmnopqrst") ∧
    ("abcdefghijabcdefghijabcdefghijabcdefghijabcdefghijabcdefghij\n\nklmnopqrstklmnopqrstklmnopqrst"
        ∈ paragraphChunks 600 "abcdefghijabcdefghijabcdefghijabcdefghijabcdefghijabcdefghij\n\nklmnopqrstklmnopqrstklmnopqrst" ∧
      pyLen "abcdefghijabcdefghijabcdefghijabcdefghijabcdefghijabcdefghij\n\nklmnopqrstklmnopqrstklmnopqrst"
        ≤ max (600 + 2) (((paragraphsOf "abcdefghijabcdefghijabcdefghijabcdefghijabcdefghijabcdefghij\n\nklmnopqrstklmnopqrstklmnopqrst").map pyLen).foldr max 0)) :=
  ⟨⟨by decide,
    (C7_amended_chunk_bounds "abcdefghijabcdefghijabcdefghijabcdefghijabcdefghijabcdefghij\n\nklmnopqrstklmnopqrstklmnopqrst" 600).1 _ (by decide)⟩,
   ⟨by decide,
    (C7_amended_chunk_bounds "abcdefghijabcdefghijabcdefghijabcdefghijabcdefghijabcdefghij\n\nklmnopqrstklmnopqrstklmnopqrst" 600).2 _ (by decide)⟩⟩

/-- `beginsWith` holds of any extension of the needle itself. -/
theorem beginsWith_append_self (s r : List Char) : beginsWith s (s ++ r) = true := by
  induction s with
  | nil => rfl
  | cons a as ih => simp [beginsWith, ih]

/-- `splitSepAux` passes over a run of a non-separator character,
moving it into the accumulator. -/
theorem splitSepAux_run (d : Char) (ds : List Char) (c : Char) (hne : (d == c) = false) :
    ∀ (n : Nat) (rest acc : List Char) (fuel : Nat), n ≤ fuel →
      splitSepAux (d :: ds) fuel (List.replicate n c ++ ((d :: ds) ++ rest)) acc
        = splitSepAux (d :: ds) (fuel - n) ((d :: ds) ++ rest) (List.replicate n c ++ acc) := by
  intro n
  induction n with
  | zero => intro rest acc fuel _; simp
  | succ m ih =>
    intro rest acc fuel hfuel
    cases fuel with
    | zero => omega
    | succ f =>
      rw [List.replicate_succ, List.cons_append, splitSepAux,
        if_neg (by simp [beginsWith, hne])]
      rw [ih rest (c :: acc) f (by omega)]
      have hacc : List.replicate m c ++ (c :: acc) = List.replicate (m + 1) c ++ acc := by
        rw [List.replicate_succ']
        simp
      rw [hacc]
      congr 1
      omega

/-- `splitSepAux` at a separator occurrence emits the accumulator and
restarts after the separator. -/
theorem splitSepAux_found (d : Char) (ds : List Char) :
    ∀ (rest acc : List Char) (fuel : Nat),
      splitSepAux (d :: ds) (fuel + 1) ((d :: ds) ++ rest) acc
        = String.mk acc.reverse :: splitSepAux (d :: ds) fuel rest [] := by
  intro rest acc fuel
  have hdrop : List.drop (d :: ds).length (d :: (ds ++ rest)) = rest := by
    simp [List.drop_succ_cons, List.drop_left]
  rw [List.cons_append, splitSepAux,
    if_pos (by rw [← List.cons_append]; exact beginsWith_append_self (d :: ds) rest), hdrop]

/-- Stripping a run of one non-whitespace character is the identity. -/
theorem stripChars_replicate (n : Nat) (c : Char) (h : isPySpace c = false) :
    stripChars (List.replicate n c) = List.replicate n c := by
  cases n with
  | zero => rfl
  | succ m =>
    unfold stripChars
    rw [List.replicate_succ, List.dropWhile_cons, if_neg (by simp [h])]
    rw [← List.replicate_succ, List.reverse_replicate]
    rw [List.replicate_succ, List.dropWhile_cons, if_neg (by simp [h])]
    rw [← List.replicate_succ, List.reverse_replicate]

/-- A 1201-character paragraph (no internal blank line). -/
def bigPara : String := String.mk (List.replicate 1201 'a')

/-- A 25-character companion paragraph. -/
def smallPara : String := String.mk (List.replicate 25 'b')

/-- A page with one oversized and one ordinary paragraph. -/
def bigText : String := bigPara ++ "\n\n" ++ smallPara

theorem pyLen_bigPara : pyLen bigPara = 1201 := by
  rw [bigPara, pyLen_mk, List.length_replicate]

theorem pyLen_smallPara : pyLen smallPara = 25 := by
  rw [smallPara, pyLen_mk, List.length_replicate]

theorem data_mk (l : List Char) : (String.mk l).data = l := rfl

theorem pyStrip_bigPara : pyStrip bigPara = bigPara := by
  rw [bigPara, pyStrip, data_mk, stripChars_replicate 1201 'a' (by decide)]

theorem pyStrip_smallPara : pyStrip smallPara = smallPara := by
  rw [smallPara, pyStrip, data_mk, stripChars_replicate 25 'b' (by decide)]

theorem bigText_split : pySplitSep "\n\n" bigText = [bigPara, smallPara] := by
  have hdata : bigText.data = List.replicate 1201 'a'
      ++ (('\n' :: ['\n']) ++ List.replicate 25 'b') := by
    rw [bigText, String.data_append, String.data_append, bigPara, smallPara,
      data_mk, data_mk, List.append_assoc]
  have hlen : bigText.data.length = 1228 := by
    rw [hdata, List.length_append, List.length_append,
      List.length_replicate, List.length_replicate]
    norm_num
  rw [pySplitSep, hlen, hdata]
  rw [splitSepAux_run '\n' ['\n'] 'a' (by decide) 1201 (List.replicate 25 'b') [] 1228
    (by omega)]
  rw [List.append_nil]
  have h27 : (1228 - 1201 : Nat) = 26 + 1 := by omega
  rw [h27, splitSepAux_found '\n' ['\n'] (List.replicate 25 'b') (List.replicate 1201 'a') 26]
  have hrest : splitSepAux ('\n' :: ['\n']) 26 (List.replicate 25 'b') []
      = [String.mk (List.replicate 25 'b')] := by decide
  rw [hrest, List.reverse_replicate]
  rfl

theorem bigText_paragraphs : paragraphsOf bigText = [bigPara, smallPara] := by
  rw [paragraphsOf, bigText_split]
  rw [List.map_cons, List.map_cons, List.map_nil, pyStrip_bigPara, pyStrip_smallPara]
  rw [List.filter_cons, List.filter_cons, List.filter_nil]
  rw [show (decide (20 < pyLen bigPara)) = true by rw [pyLen_bigPara]; decide]
  rw [show (decide (20 < pyLen smallPara)) = true by rw [pyLen_smallPara]; decide]
  simp

/-- Claim C7, counterexample: with the default target size 600, a page
holding a 1201-character paragraph next to a second 25-character
paragraph yields two chunks from paragraph-splitting (so the
word-window fallback is not used), and the first chunk is 1201
characters long — above the claimed `2 × target_size = 1200` bound. -/
theorem C7_counterexample :
    createSmartChunks bigText 600 = [bigPara, smallPara] ∧
    paragraphChunks 600 bigText = [bigPara, smallPara] ∧
    600 * 2 < pyLen bigPara := by
  have hne : bigPara ≠ "" := by
    intro h
    have := congrArg pyLen h
    rw [pyLen_bigPara] at this
    simp [pyLen] at this
  have hchunks : paragraphChunks 600 bigText = [bigPara, smallPara] := by
    rw [paragraphChunks, bigText_paragraphs]
    rw [accumChunks, if_neg (by simp [pyLen]), if_pos rfl]
    rw [accumChunks, if_pos ⟨by rw [pyLen_bigPara, pyLen_smallPara]; omega, hne⟩]
    rw [accumChunks, if_neg (by decide)]
    rw [pyStrip_bigPara, pyStrip_smallPara]
  refine ⟨?_, hchunks, by rw [pyLen_bigPara]; omega⟩
  rw [createSmartChunks, hchunks]

/-! ## The scorer against the specification formula (claim C2) -/

theorem wordsOf_nodup (s : String) : (wordsOf s).Nodup := List.nodup_dedup _

theorem wordsOf_toFinset (s : String) : (wordsOf s).toFinset = wordSet s := by
  ext a
  simp [wordsOf, wordSet, List.mem_toFinset, List.mem_dedup]

theorem wordsOf_length (s : String) : (wordsOf s).length = (wordSet s).card := by
  rw [← wordsOf_toFinset, List.toFinset_card_of_nodup (wordsOf_nodup s)]

/-- Counting a filtered duplicate-free word list is counting the
filtered word set. -/
theorem filter_words_card (s : String) (p : String → Bool) :
    ((wordsOf s).filter p).length = ((wordSet s).filter (fun w => p w = true)).card := by
  rw [← List.toFinset_card_of_nodup ((wordsOf_nodup s).filter p)]
  rw [List.toFinset_filter, wordsOf_toFinset]

/-- The source's word-overlap count is the spec's intersection
cardinality. -/
theorem keyword_count_nat (q d : String) :
    ((wordsOf q).filter (fun w => w ∈ pySplitWS (lowerS d))).length
      = (wordSet q ∩ wordSet d).card := by
  rw [filter_words_card]
  congr 1
  rw [← Finset.filter_mem_eq_inter]
  apply Finset.filter_congr
  intro x _
  simp [wordSet, List.mem_toFinset]

/-- The five factors of `_calculate_enhanced_relevance` sum exactly to
the specification's weighted formula (before the cap). -/
theorem calc_eq_spec_sum (q d : String) (md : Metadata) (b : ℚ) :
    keywordScorePart q d + metadataScorePart q md + sectionBonusPart md
      + lengthScorePart md + b * (3/20) = specRelevance q d md b := by
  have hsec : sectionBonusPart md =
      (if md.section_type ∈ (["obligation", "procedure", "right"] : List String)
        then (3/20 : ℚ) else 1/20) := by
    unfold sectionBonusPart
    refine if_congr ?_ rfl rfl
    simp
  by_cases hq : (wordsOf q).length = 0
  · have hcard : (wordSet q).card = 0 := by rw [← wordsOf_length]; exact hq
    unfold keywordScorePart metadataScorePart specRelevance lengthScorePart
    rw [if_pos hq, if_pos hq, hcard, hsec]
    push_cast
    rw [div_zero, div_zero]
    ring
  · unfold keywordScorePart metadataScorePart specRelevance lengthScorePart
    rw [if_neg hq, if_neg hq, keyword_count_nat q d,
      filter_words_card q (fun w =>
        (pySplitComma (lowerS md.keywords)).any (fun kw => occursInS w kw)),
      wordsOf_length, hsec]
    ring

/-- A quotient of nonnegative naturals with numerator at most the
denominator is at most one (with the `x / 0 = 0` convention). -/
theorem nat_div_le_one {a b : Nat} (h : a ≤ b) : (a : ℚ) / (b : ℚ) ≤ 1 := by
  rcases Nat.eq_zero_or_pos b with rfl | hb
  · simp
  · rw [div_le_one (by exact_mod_cast hb)]
    exact_mod_cast h

/-- The specification's weighted sum never exceeds `1` when the base
score is at most `1`. -/
theorem specRelevance_le_one (q d : String) (md : Metadata) (b : ℚ) (hb : b ≤ 1) :
    specRelevance q d md b ≤ 1 := by
  unfold specRelevance
  have h1 : (((wordSet q ∩ wordSet d).card : ℚ) / ((wordSet q).card : ℚ)) ≤ 1 :=
    nat_div_le_one (Finset.card_le_card Finset.inter_subset_left)
  have h1n : (0 : ℚ) ≤ ((wordSet q ∩ wordSet d).card : ℚ) / ((wordSet q).card : ℚ) := by
    positivity
  have h2 : ((((wordSet q).filter (fun w =>
      (pySplitComma (lowerS md.keywords)).any (fun kw => occursInS w kw) = true)).card : ℚ)
      / ((wordSet q).card : ℚ)) ≤ 1 :=
    nat_div_le_one (Finset.card_filter_le _ _)
  have h2n : (0 : ℚ) ≤ (((wordSet q).filter (fun w =>
      (pySplitComma (lowerS md.keywords)).any (fun kw => occursInS w kw) = true)).card : ℚ)
      / ((wordSet q).card : ℚ) := by
    positivity
  have h3 : (if md.section_type ∈ (["obligation", "procedure", "right"] : List String)
      then (3/20 : ℚ) else 1/20) ≤ 3/20 := by
    split <;> norm_num
  have h4 : pyMin ((md.text_length : ℚ) / 500) 1 ≤ 1 := pyMin_le_right _ _
  have h4n : (0 : ℚ) ≤ pyMin ((md.text_length : ℚ) / 500) 1 :=
    le_pyMin (by positivity) (by norm_num)
  nlinarith

/-- Claim C2, amended: the scorer returns `min(weighted sum, 1.0)` — the
spec's exact weighted sum whenever that sum is at most `1`, which holds
in particular whenever the caller-supplied base score is at most `1`
(both in-repo callers satisfy this for nonnegative distances); it is a
pure function of its four arguments. -/
theorem C2_amended_clamped_formula (q d : String) (md : Metadata) (b : ℚ) :
    calcEnhancedRelevance q d md b = pyMin (specRelevance q d md b) 1 ∧
    (b ≤ 1 → calcEnhancedRelevance q d md b = specRelevance q d md b) := by
  have hmain : calcEnhancedRelevance q d md b = pyMin (specRelevance q d md b) 1 := by
    unfold calcEnhancedRelevance
    rw [calc_eq_spec_sum]
  refine ⟨hmain, fun hb => ?_⟩
  rw [hmain, pyMin, if_pos (specRelevance_le_one q d md b hb)]

/-- Witness for the amended C2 at the fallback base `0.5`. -/
theorem C2_amended_clamped_formula_witness :
    calcEnhancedRelevance "data" "data rules"
        (mdOfParts "" "general" "Pasal 1" "GDPR" 0) (1/2)
      = specRelevance "data" "data rules" (mdOfParts "" "general" "Pasal 1" "GDPR" 0) (1/2) :=
  (C2_amended_clamped_formula "data" "data rules"
    (mdOfParts "" "general" "Pasal 1" "GDPR" 0) (1/2)).2 (by norm_num)

/-- Claim C2, counterexample: the scorer does not return the weighted
sum for every base score — at base `10` with full keyword, tag,
section and length components the weighted sum is `2.35`, but the
scorer caps it and returns `1`. -/
theorem C2_counterexample :
    calcEnhancedRelevance "data" "data"
        (mdOfParts "data" "obligation" "Pasal 1" "GDPR" 500) 10 = 1 ∧
    specRelevance "data" "data" (mdOfParts "data" "obligation" "Pasal 1" "GDPR" 500) 10
      = 47/20 := by
  have h1 : wordsOf "data" = ["data"] := by decide
  have h2 : ["data"].filter (fun w => w ∈ pySplitWS (lowerS "data")) = ["data"] := by decide
  have h3 : ["data"].filter (fun w =>
      (pySplitComma (lowerS "data")).any (fun kw => occursInS w kw)) = ["data"] := by decide
  constructor
  · simp +decide only [calcEnhancedRelevance, keywordScorePart, metadataScorePart,
      sectionBonusPart, lengthScorePart, pyMin, mdOfParts, h1, h2, h3]
    norm_num
  · rw [← calc_eq_spec_sum]
    simp +decide only [keywordScorePart, metadataScorePart,
      sectionBonusPart, lengthScorePart, pyMin, mdOfParts, h1, h2, h3]
    norm_num
